import Mathlib

/-!
Verification of the screen-observation and convergence-detection core of the
mcp-mobile-interaction server, shallowly embedded in Lean 4.

The embedding follows the TypeScript source:
  * `UiElement`, `Bounds` — the canonical element model (src/types.ts shape as
    used by the parsers; numeric fields are integers, which is what the Android
    parser produces and suffices for every stated property).
  * `filterUiElements` — src/utils/ui-filter.ts.
  * `hashUiTree`, `waitForStableUiTree` — src/utils/observe.ts; the wall-clock
    deadline loop `while (Date.now() - start < timeoutMs)` is modelled by a
    `fuel` parameter counting how many loop iterations the deadline admits
    (`timeoutMs <= 0` admits zero iterations, since `Date.now() - start >= 0`
    already at the first check).  The per-iteration `getUiTree` call is an
    oracle `capture : Nat -> List UiElement` giving the tree returned by the
    i-th fetch.
  * `performObservation` — src/utils/observe.ts, over the same oracle.
  * `parseUiXml`, `nodeToElement` — the Android adapter's XML flattening; the
    node-regex/`extractAttr` tokenisation of the raw XML text is abstracted as
    a list of `RawNode` attribute records, one per `<node ...>` tag, while the
    bounds-attribute regex is embedded character by character.
  * `parseIdbDescribeAll`, `entryToElement` — the iOS adapter's per-line JSON
    parse; a line that is not valid JSON is `Option.none` in the input list.
  * `getUiTreeAndroid`, `tryStrategies` — the Android 4-strategy retrieval.
-/

/-- Rectangular bounds of an element: `bounds{x,y,width,height}`. -/
structure Bounds where
  x : Int
  y : Int
  width : Int
  height : Int
deriving DecidableEq, Repr

/-- The canonical UI element record produced by both platform adapters.
`resource_id`, `enabled` and `focused` are optional in the TypeScript type;
the iOS parser never sets `focused`. -/
structure UiElement where
  index : Nat
  type : String
  text : String
  bounds : Bounds
  center_x : Int
  center_y : Int
  clickable : Bool
  resource_id : Option String
  enabled : Option Bool
  focused : Option Bool
deriving DecidableEq, Repr

/-- JavaScript `String.prototype.trim`: drop leading and trailing whitespace
(`Char.isWhitespace` covers the ASCII whitespace the UI dumps contain). -/
def jsTrim (s : String) : String :=
  String.mk
    (((s.toList.dropWhile Char.isWhitespace).reverse.dropWhile
        Char.isWhitespace).reverse)

/-- src/utils/ui-filter.ts `filterUiElements`.  The source gives `includeAll`
the default value `false`; callers in this file always pass it explicitly. -/
def filterUiElements (elements : List UiElement) (includeAll : Bool) :
    List UiElement :=
  if includeAll then elements
  else elements.filter (fun el => jsTrim el.text != "" || el.clickable)

/-- The filter predicate inside `hashUiTree`: the source's arrow function
returns `false` (drop) when `el.bounds.y < 60 && el.bounds.height < 60`,
else `true` (keep). -/
def stableElement (el : UiElement) : Bool :=
  !(decide (el.bounds.y < 60) && decide (el.bounds.height < 60))

/-- One line of the stability signature, the source's template literal
`type|text|x,y,width,height|clickable` (integer and boolean `toString`
coincide with JavaScript's). -/
def elementHashLine (el : UiElement) : String :=
  el.type ++ "|" ++ el.text ++ "|" ++ toString el.bounds.x ++ "," ++
    toString el.bounds.y ++ "," ++ toString el.bounds.width ++ "," ++
    toString el.bounds.height ++ "|" ++ toString el.clickable

/-- src/utils/observe.ts `hashUiTree`: filter out status-bar-band elements,
then join the per-element lines with a newline. -/
def hashUiTree (elements : List UiElement) : String :=
  let stable := elements.filter stableElement
  String.intercalate "\n" (stable.map elementHashLine)

/-- Observable outcome of one `waitForStableUiTree` run: the returned tree,
how many `getUiTree` captures were taken, and whether the run returned via
the convergence branch (`true`) or via the deadline fall-through (`false`). -/
structure DetectorResult where
  tree : List UiElement
  captures : Nat
  converged : Bool
deriving DecidableEq, Repr

/-- The loop body of src/utils/observe.ts `waitForStableUiTree`.  `fuel` is
the number of loop iterations the wall-clock deadline still admits, `i` the
index of the next capture, `prevHash`/`prevTree` the `previousHash` and
`previousTree` variables.  Each iteration captures `capture i`, hashes it,
returns on `hash === previousHash && previousHash !== ""`, and otherwise
records the capture and continues. -/
def detectLoop (capture : Nat → List UiElement) :
    Nat → Nat → String → List UiElement → DetectorResult
  | 0, i, _, prevTree => ⟨prevTree, i, false⟩
  | fuel + 1, i, prevHash, _ =>
      let tree := capture i
      let hash := hashUiTree tree
      if hash = prevHash ∧ prevHash ≠ "" then ⟨tree, i + 1, true⟩
      else detectLoop capture fuel (i + 1) hash tree

/-- src/utils/observe.ts `waitForStableUiTree`: start with empty
`previousHash` and empty `previousTree`. -/
def waitForStableUiTree (capture : Nat → List UiElement) (fuel : Nat) :
    DetectorResult :=
  detectLoop capture fuel 0 "" []

example : (waitForStableUiTree (fun _ => []) 0).captures = 0 := by decide

/-- A sample element kept by the signature filter (y = 100). -/
def elemOk : UiElement :=
  ⟨0, "Button", "OK", ⟨0, 100, 50, 50⟩, 25, 125, true, Option.none,
    Option.none, Option.none⟩

/-- A second kept sample element, with a different signature line. -/
def elemHello : UiElement :=
  ⟨0, "TextView", "Hello", ⟨0, 200, 80, 40⟩, 40, 220, false, Option.none,
    Option.none, Option.none⟩

/-- A sample element inside the status-bar band (y = 10, height = 20). -/
def elemClock : UiElement :=
  ⟨0, "TextView", "12:00", ⟨0, 10, 60, 20⟩, 30, 20, false, Option.none,
    Option.none, Option.none⟩

example : hashUiTree [elemOk] = "Button|OK|0,100,50,50|true" := by decide
example : hashUiTree [elemClock] = "" := by decide
example :
    (waitForStableUiTree (fun i => if i = 0 then [elemOk] else [elemHello])
      5).converged = true := by decide

/-- JavaScript `Math.round(n / 2)` for a nonnegative integer `n`: a half is
rounded toward positive infinity, which for `n : Nat` is `(n + 1) / 2`. -/
def jsRoundHalfNat (n : Nat) : Int :=
  Int.ofNat ((n + 1) / 2)

/-- JavaScript `Math.round(n / 2)` for any integer `n` (a half is rounded
toward positive infinity; both branches are exact integer divisions). -/
def jsRoundHalfInt (n : Int) : Int :=
  if n % 2 = 0 then n / 2 else (n + 1) / 2

/-- On nonnegative arguments the two roundings agree. -/
theorem jsRoundHalfNat_eq_int (n : Nat) :
    jsRoundHalfNat n = jsRoundHalfInt (Int.ofNat n) := by
  unfold jsRoundHalfNat jsRoundHalfInt
  by_cases h : (Int.ofNat n) % 2 = 0 <;> simp [h] <;> omega

/-- The attribute record of one `<node ...>` tag of a uiautomator dump, the
result of the Android parser's `extractAttr` calls: `Option.none` when the
attribute is absent from the tag. -/
structure RawNode where
  classAttr : Option String
  textAttr : Option String
  contentDescAttr : Option String
  clickableAttr : Option String
  boundsAttr : Option String
  resourceIdAttr : Option String
  enabledAttr : Option String
  focusedAttr : Option String
deriving DecidableEq, Repr

/-- Read a maximal nonempty run of decimal digits (the regex `\d+`), returning
its value and the rest of the input. -/
def readNat (cs : List Char) : Option (Nat × List Char) :=
  let digits := cs.takeWhile Char.isDigit
  if digits.isEmpty then Option.none
  else some (digits.foldl (fun acc c => acc * 10 + (c.toNat - 48)) 0,
             cs.dropWhile Char.isDigit)

/-- Consume one expected literal character. -/
def expectChar (c : Char) : List Char → Option (List Char)
  | [] => Option.none
  | d :: rest => if d = c then some rest else Option.none

/-- Match the bounds regex `\[(\d+),(\d+)\]\[(\d+),(\d+)\]` at the start of
the input.  Since `\d+` can never consume the delimiter that follows it,
greedy matching coincides with this deterministic longest-digit-run parse. -/
def parseBoundsAt (cs : List Char) : Option (Nat × Nat × Nat × Nat) := do
  let cs ← expectChar '[' cs
  let (x1, cs) ← readNat cs
  let cs ← expectChar ',' cs
  let (y1, cs) ← readNat cs
  let cs ← expectChar ']' cs
  let cs ← expectChar '[' cs
  let (x2, cs) ← readNat cs
  let cs ← expectChar ',' cs
  let (y2, cs) ← readNat cs
  let _ ← expectChar ']' cs
  pure (x1, y1, x2, y2)

/-- Regex search: `String.prototype.match` scans start positions left to
right and returns the first match. -/
def searchBounds : List Char → Option (Nat × Nat × Nat × Nat)
  | [] => Option.none
  | c :: rest =>
      match parseBoundsAt (c :: rest) with
      | some r => some r
      | Option.none => searchBounds rest

/-- The bounds match `boundsStr.match(...)` of the Android parser against
the pattern two corner points, returning the four captured numbers. -/
def parseBoundsStr (s : String) : Option (Nat × Nat × Nat × Nat) :=
  searchBounds s.toList

example : parseBoundsStr "[0,100][540,150]" = some (0, 100, 540, 150) := by
  decide
example : parseBoundsStr "x[7,8][10,12]y" = some (7, 8, 10, 12) := by decide
example : parseBoundsStr "[7,8][10]" = Option.none := by decide

/-- The replace call on `rawResourceId` with the anchored pattern: strip a
nonempty colon-free package run followed by the literal `:id/`; anything
else is unchanged.
(The anchored greedy `[^:]+` can only be the maximal colon-free run, since
the character after it must be `:`.) -/
def stripResourceIdPackage (s : String) : String :=
  let cs := s.toList
  let p := cs.takeWhile (fun c => c != ':')
  let rest := cs.dropWhile (fun c => c != ':')
  if p ≠ [] ∧ rest.take 4 = [':', 'i', 'd', '/'] then String.mk (rest.drop 4)
  else s

example : stripResourceIdPackage "com.example:id/btn" = "btn" := by decide
example : stripResourceIdPackage ":id/btn" = ":id/btn" := by decide
example : stripResourceIdPackage "btn" = "btn" := by decide

/-- The split-pop on the class attribute: the suffix after the last `.`, the
whole string when no `.` occurs. -/
def lastDotSegment (s : String) : String :=
  String.mk ((s.toList.reverse.takeWhile (fun c => c != '.')).reverse)

example : lastDotSegment "android.widget.Button" = "Button" := by decide
example : lastDotSegment "Button" = "Button" := by decide
example : lastDotSegment "a.b." = "" := by decide

/-- The per-node body of the Android parser's loop (src/platforms/android.ts
`parseUiXml`): extract type, display text, clickable flag; parse the bounds
attribute, skipping the node (`continue`) when it does not match; derive
width/height by corner subtraction and the centers by `Math.round` of the
corner midpoints. -/
def nodeToElement (index : Nat) (r : RawNode) : Option UiElement :=
  let type :=
    match r.classAttr with
    | some c => lastDotSegment c
    | Option.none => "Unknown"
  let text := r.textAttr.getD ""
  let contentDesc := r.contentDescAttr.getD ""
  let clickable := r.clickableAttr == some "true"
  let boundsStr := r.boundsAttr.getD ""
  let rawResourceId := r.resourceIdAttr.getD ""
  let enabled := r.enabledAttr == some "true"
  let focused := r.focusedAttr == some "true"
  match parseBoundsStr boundsStr with
  | Option.none => Option.none
  | some (x1, y1, x2, y2) =>
      let displayText := if text = "" then contentDesc else text
      let resourceId :=
        if rawResourceId = "" then Option.none
        else some (stripResourceIdPackage rawResourceId)
      some ⟨index, type, displayText,
            ⟨Int.ofNat x1, Int.ofNat y1, Int.ofNat x2 - Int.ofNat x1,
             Int.ofNat y2 - Int.ofNat y1⟩,
            jsRoundHalfNat (x1 + x2), jsRoundHalfNat (y1 + y2),
            clickable, resourceId, some enabled, some focused⟩

/-- The Android parser's while-loop over the node tags, threading the `index`
counter, which is incremented only when a node is actually emitted. -/
def parseUiXmlFrom : List RawNode → Nat → List UiElement
  | [], _ => []
  | r :: rest, index =>
      match nodeToElement index r with
      | some el => el :: parseUiXmlFrom rest (index + 1)
      | Option.none => parseUiXmlFrom rest index

/-- src/platforms/android.ts `parseUiXml`, over the node attribute records
extracted from the XML text. -/
def parseUiXml (nodes : List RawNode) : List UiElement :=
  parseUiXmlFrom nodes 0

/-- The `frame` object of one `idb ui describe-all` JSON record; each field
may be absent. -/
structure IdbFrame where
  x : Option Int
  y : Option Int
  width : Option Int
  height : Option Int
deriving DecidableEq, Repr

/-- One parsed JSON record of `idb ui describe-all` (src/platforms/ios.ts
`parseIdbDescribeAll`), with exactly the fields the parser reads; an absent
field is `Option.none` (JavaScript `undefined`). -/
structure IdbEntry where
  frame : Option IdbFrame
  AXIdentifier : Option String
  accessibilityIdentifier : Option String
  identifier : Option String
  type : Option String
  AXType : Option String
  title : Option String
  AXLabel : Option String
  label : Option String
  enabled : Option Bool
deriving DecidableEq, Repr

/-- The per-record body of the iOS parser's loop: `??`-chains are first
*present* value (`Option.orElse`), so a present empty string is kept. -/
def entryToElement (index : Nat) (e : IdbEntry) : UiElement :=
  let x := (e.frame.bind IdbFrame.x).getD 0
  let y := (e.frame.bind IdbFrame.y).getD 0
  let width := (e.frame.bind IdbFrame.width).getD 0
  let height := (e.frame.bind IdbFrame.height).getD 0
  let resourceId := e.AXIdentifier <|> e.accessibilityIdentifier <|> e.identifier
  ⟨index,
   (e.type <|> e.AXType).getD "Unknown",
   (e.title <|> e.AXLabel <|> e.label).getD "",
   ⟨x, y, width, height⟩,
   jsRoundHalfInt (2 * x + width),
   jsRoundHalfInt (2 * y + height),
   e.enabled.getD true,
   resourceId,
   some (e.enabled.getD true),
   Option.none⟩

/-- The iOS parser's loop over output lines: `JSON.parse` throwing on a
non-JSON line (`Option.none` here) skips the line; `index` is incremented
only for emitted elements.  `center_x = Math.round(x + width / 2)` is
`jsRoundHalfInt (2 * x + width)` since `x + width / 2 = (2x + width) / 2`. -/
def parseIdbDescribeAllFrom : List (Option IdbEntry) → Nat → List UiElement
  | [], _ => []
  | Option.none :: rest, index => parseIdbDescribeAllFrom rest index
  | some e :: rest, index =>
      entryToElement index e :: parseIdbDescribeAllFrom rest (index + 1)

/-- src/platforms/ios.ts `parseIdbDescribeAll`, over the per-line parse
results. -/
def parseIdbDescribeAll (lines : List (Option IdbEntry)) : List UiElement :=
  parseIdbDescribeAllFrom lines 0

/-- Outcome of one Android UI-dump retrieval strategy (the thunks in
src/platforms/android.ts `getUiTree`): the underlying exec threw, or
`extractXml` found no document (`null`), or an XML document whose node tags
carry these attribute records. -/
inductive StrategyOutcome where
  | throws
  | noXml
  | xml (nodes : List RawNode)
deriving DecidableEq, Repr

/-- A strategy succeeds and yields at least one parsed element when it
returned an XML document whose parse is nonempty. -/
def strategySucceeds (o : StrategyOutcome) : Bool :=
  match o with
  | StrategyOutcome.xml nodes => !(parseUiXml nodes).isEmpty
  | _ => false

/-- The source's message for the all-strategies-failed error. -/
def treeParseErrorMsg : String :=
  "Failed to parse UI tree XML from uiautomator dump after 4 attempts. The screen may be in transition — try again after a short delay."

/-- The `for (const strategy of strategies)` loop of the Android `getUiTree`:
a throw is caught and the next strategy tried; a `null` result skips the
parse; a parse with no elements also falls through to the next strategy. -/
def tryStrategies : List StrategyOutcome → Except String (List UiElement)
  | [] => Except.error treeParseErrorMsg
  | o :: rest =>
      match o with
      | StrategyOutcome.throws => tryStrategies rest
      | StrategyOutcome.noXml => tryStrategies rest
      | StrategyOutcome.xml nodes =>
          let elements := parseUiXml nodes
          if elements.length > 0 then Except.ok elements
          else tryStrategies rest

/-- src/platforms/android.ts `getUiTree`: the fixed strategy order
tty → file → (settle delay, then) tty → (settle delay, then) file.  The
800 ms settle delay before the third and fourth strategies changes no data,
so the model keeps only the outcomes, in order. -/
def getUiTreeAndroid (tty1 file1 tty2 file2 : StrategyOutcome) :
    Except String (List UiElement) :=
  tryStrategies [tty1, file1, tty2, file2]

/-- The orchestrator's observation mode (src/utils/observe.ts). -/
inductive ObserveMode where
  | none
  | ui_tree
  | screenshot
  | both
deriving DecidableEq, Repr

/-- src/utils/observe.ts `ObserveOptions`.  `platform` and `deviceId` select
which device the `capture`/screenshot oracles talk to and are absorbed into
those oracles; `delayMs`, `stabilizeTimeoutMs` and `stabilizePollMs` only
influence real-time waiting, which the detector's `fuel` parameter models. -/
structure ObserveOptions where
  mode : ObserveMode
  delayMs : Option Int
  stabilize : Option Bool
  stabilizeTimeoutMs : Option Nat
  stabilizePollMs : Option Nat
  filterUi : Option Bool
deriving DecidableEq, Repr

/-- The compressed screenshot result produced by the (external) image
collaborator. -/
structure Screenshot where
  base64 : String
  width : Int
  height : Int
deriving DecidableEq, Repr

/-- src/utils/format-response.ts `ObservationResult`. -/
structure ObservationResult where
  uiTree : Option (List UiElement)
  screenshot : Option Screenshot
deriving DecidableEq, Repr

/-- Index of the `getUiTree` call the orchestrator issues after its waiting
phase: when `options.stabilize` holds, the detector has already consumed
captures `0 .. n-1` (where `n` is its capture count), so the orchestrator's
own fetch is capture `n`; otherwise it is capture `0`. -/
def postStabIndex (capture : Nat → List UiElement) (fuel : Nat)
    (options : ObserveOptions) : Nat :=
  if options.stabilize.getD false then (waitForStableUiTree capture fuel).captures
  else 0

/-- src/utils/observe.ts `performObservation`.  `mode === "none"` returns
`undefined`.  The stabilize branch awaits `waitForStableUiTree` purely for
its side effect — its returned tree is not bound to anything.  The tree and
screenshot fetches are issued concurrently, but there is only one tree fetch,
so capture numbering is unaffected.  An array is always truthy in
JavaScript, so `result.uiTree` is set exactly when a tree was requested. -/
def performObservation (capture : Nat → List UiElement) (shot : Screenshot)
    (fuel : Nat) (options : ObserveOptions) : Option ObservationResult :=
  if options.mode = ObserveMode.none then Option.none
  else
    let nextCapture := postStabIndex capture fuel options
    let wantTree :=
      options.mode = ObserveMode.ui_tree ∨ options.mode = ObserveMode.both
    let wantScreenshot :=
      options.mode = ObserveMode.screenshot ∨ options.mode = ObserveMode.both
    let tree : Option (List UiElement) :=
      if wantTree then some (capture nextCapture) else Option.none
    let screenshotRes : Option Screenshot :=
      if wantScreenshot then some shot else Option.none
    some ⟨tree.map (fun t => filterUiElements t (!(options.filterUi.getD true))),
          screenshotRes⟩

/-! ## Lemmas about the stability detector -/

/-- If a `detectLoop` run converges, then either the incoming `prevHash` was
already non-empty and it converged on its first capture, or it took at least
two further captures. -/
theorem detectLoop_converged_captures (capture : Nat → List UiElement) :
    ∀ (fuel i : Nat) (prevHash : String) (prevTree : List UiElement),
      (detectLoop capture fuel i prevHash prevTree).converged = true →
      (prevHash ≠ "" ∧
        (detectLoop capture fuel i prevHash prevTree).captures = i + 1) ∨
      i + 2 ≤ (detectLoop capture fuel i prevHash prevTree).captures := by
  intro fuel
  induction fuel with
  | zero =>
      intro i prevHash prevTree h
      simp [detectLoop] at h
  | succ f ih =>
      intro i prevHash prevTree h
      by_cases hc : hashUiTree (capture i) = prevHash ∧ prevHash ≠ ""
      · left
        refine ⟨hc.2, ?_⟩
        simp [detectLoop, hc]
      · right
        simp only [detectLoop, if_neg hc] at h ⊢
        rcases ih (i + 1) (hashUiTree (capture i)) (capture i) h with
          ⟨_, hcap⟩ | hcap <;> omega

/-- A `detectLoop` run whose `prevHash` is the hash of the previous capture
never converges when no two consecutive captures hash equal; it runs out of
fuel and returns the last capture. -/
theorem detectLoop_no_consecutive (capture : Nat → List UiElement)
    (hne : ∀ j, hashUiTree (capture (j + 1)) ≠ hashUiTree (capture j)) :
    ∀ (fuel i : Nat),
      detectLoop capture fuel (i + 1) (hashUiTree (capture i)) (capture i)
        = ⟨capture (i + fuel), i + fuel + 1, false⟩ := by
  intro fuel
  induction fuel with
  | zero => intro i; simp [detectLoop]
  | succ f ih =>
      intro i
      have hcond : ¬ (hashUiTree (capture (i + 1)) = hashUiTree (capture i) ∧
          hashUiTree (capture i) ≠ "") := fun hc => hne i hc.1
      simp only [detectLoop, if_neg hcond]
      have h2 := ih (i + 1)
      rw [show i + 1 + 1 = i + 2 by omega] at h2 ⊢
      rw [h2, show i + 1 + f = i + (f + 1) by omega]

/-! ## C1 — convergence at the third capture -/

/-- The capture sequence refuting C1 as stated: the first capture hashes to a
non-empty signature, the second and third to the (equal, but empty)
signature of the empty tree. -/
def capC1 : Nat → List UiElement := fun i => if i = 0 then [elemOk] else []

/-- C1 as stated is false: here the first and second signatures differ and
the second and third signatures are equal, yet the run that observes exactly
these three captures does not declare convergence at the third capture
(the code additionally requires the repeated signature to be non-empty). -/
theorem waitForStable_c1_counterexample :
    hashUiTree (capC1 0) ≠ hashUiTree (capC1 1) ∧
    hashUiTree (capC1 1) = hashUiTree (capC1 2) ∧
    (waitForStableUiTree capC1 3).converged = false := by decide

/-- C1 (amended): if the first and second captures have different signatures,
the second and third captures have equal *non-empty* signatures, and the
deadline admits at least three iterations, then `waitForStableUiTree`
declares convergence exactly at the third capture and returns the third
capture's tree. -/
theorem waitForStable_third_capture (capture : Nat → List UiElement)
    (fuel : Nat)
    (h01 : hashUiTree (capture 0) ≠ hashUiTree (capture 1))
    (h12 : hashUiTree (capture 1) = hashUiTree (capture 2))
    (hne : hashUiTree (capture 1) ≠ "")
    (hfuel : 3 ≤ fuel) :
    waitForStableUiTree capture fuel = ⟨capture 2, 3, true⟩ := by
  obtain ⟨f, rfl⟩ : ∃ f, fuel = f + 3 := ⟨fuel - 3, by omega⟩
  unfold waitForStableUiTree
  have e1 : ¬ (hashUiTree (capture 0) = "" ∧ ("" : String) ≠ "") := by simp
  have e2 : ¬ (hashUiTree (capture 1) = hashUiTree (capture 0) ∧
      hashUiTree (capture 0) ≠ "") := fun hc => h01 hc.1.symm
  have e3 : hashUiTree (capture 2) = hashUiTree (capture 1) ∧
      hashUiTree (capture 1) ≠ "" := ⟨h12.symm, hne⟩
  simp only [detectLoop, if_neg e1, if_neg e2, if_pos e3]

/-- Witness for `waitForStable_third_capture` at a concrete capture
sequence. -/
def capC1w : Nat → List UiElement := fun i => if i = 0 then [elemOk] else [elemHello]

theorem waitForStable_third_capture_witness :
    waitForStableUiTree capC1w 3 = ⟨capC1w 2, 3, true⟩ :=
  waitForStable_third_capture capC1w 3 (by decide) (by decide) (by decide)
    (by omega)

/-! ## C2 — no convergence on the first capture -/

/-- C2 as stated is false: with `timeoutMs = 0` the deadline check
`Date.now() - start < timeoutMs` fails before the first iteration, so the
detector takes zero captures (not at least two) and returns without
failing. -/
theorem waitForStable_c2_counterexample :
    (waitForStableUiTree (fun _ => [elemOk]) 0).captures = 0 ∧
    ¬ 2 ≤ (waitForStableUiTree (fun _ => [elemOk]) 0).captures ∧
    (waitForStableUiTree (fun _ => [elemOk]) 0).converged = false := by decide

/-- C2 (amended): convergence is never declared on the very first capture;
whenever the detector declares convergence, at least two captures have been
taken.  (When the deadline admits fewer than two iterations — e.g.
`timeoutMs <= 0` — the detector can return after zero or one captures,
without convergence and without failing.) -/
theorem waitForStable_convergence_needs_two (capture : Nat → List UiElement)
    (fuel : Nat)
    (h : (waitForStableUiTree capture fuel).converged = true) :
    2 ≤ (waitForStableUiTree capture fuel).captures := by
  rcases detectLoop_converged_captures capture fuel 0 "" [] h with
    ⟨hne, _⟩ | hcap
  · exact absurd rfl hne
  · exact hcap

theorem waitForStable_convergence_needs_two_witness :
    2 ≤ (waitForStableUiTree (fun _ => [elemOk]) 5).captures :=
  waitForStable_convergence_needs_two (fun _ => [elemOk]) 5 (by decide)

/-! ## C3 — soft timeout returns the last capture -/

/-- C3: when no two consecutive captures hash equal, the detector never
converges; once the deadline is exhausted it returns the most recent
captured tree.  The return is by the ordinary fall-through after the loop —
the function's only exit paths are the convergence return and this one, so
no error is raised. -/
theorem waitForStable_soft_timeout (capture : Nat → List UiElement)
    (fuel : Nat)
    (hne : ∀ j, hashUiTree (capture (j + 1)) ≠ hashUiTree (capture j))
    (hfuel : 0 < fuel) :
    (waitForStableUiTree capture fuel).converged = false ∧
    (waitForStableUiTree capture fuel).tree = capture (fuel - 1) := by
  obtain ⟨f, rfl⟩ : ∃ f, fuel = f + 1 := ⟨fuel - 1, by omega⟩
  unfold waitForStableUiTree
  have e1 : ¬ (hashUiTree (capture 0) = "" ∧ ("" : String) ≠ "") := by simp
  simp only [detectLoop, if_neg e1]
  have h2 := detectLoop_no_consecutive capture hne f 0
  simp only [Nat.zero_add] at h2
  rw [h2]
  simp

/-- The alternating capture sequence used to witness the soft timeout. -/
def capAlt : Nat → List UiElement := fun i => if i % 2 = 0 then [] else [elemOk]

theorem waitForStable_soft_timeout_witness :
    (waitForStableUiTree capAlt 2).converged = false ∧
    (waitForStableUiTree capAlt 2).tree = capAlt 1 := by
  refine waitForStable_soft_timeout capAlt 2 ?_ (by omega)
  intro j
  by_cases h : j % 2 = 0
  · have h2 : (j + 1) % 2 = 1 := by omega
    simp only [capAlt, h, h2]
    decide
  · have h1 : j % 2 = 1 := by omega
    have h2 : (j + 1) % 2 = 0 := by omega
    simp only [capAlt, h1, h2]
    decide

/-! ## C4 — the stability signature ignores the status-bar band -/

/-- C4: trees whose elements agree outside the status-bar band
(`y < 60 and height < 60`) have the same stability signature, and every
remaining element contributes one delimited line of its type, text, the four
bounds numbers, and its clickable flag. -/
theorem hashUiTree_spec :
    (∀ l1 l2 : List UiElement,
        l1.filter stableElement = l2.filter stableElement →
        hashUiTree l1 = hashUiTree l2) ∧
    (∀ el : UiElement, stableElement el = true →
        hashUiTree [el] =
          el.type ++ "|" ++ el.text ++ "|" ++ toString el.bounds.x ++ "," ++
            toString el.bounds.y ++ "," ++ toString el.bounds.width ++ "," ++
            toString el.bounds.height ++ "|" ++ toString el.clickable) := by
  constructor
  · intro l1 l2 h
    unfold hashUiTree
    rw [h]
  · intro el h
    show String.intercalate "\n"
        (([el].filter stableElement).map elementHashLine) = _
    rw [show [el].filter stableElement = [el] from by simp [h]]
    rfl

theorem hashUiTree_spec_witness :
    hashUiTree [elemClock, elemOk] = hashUiTree [elemOk] ∧
    hashUiTree [elemOk] = "Button|OK|0,100,50,50|true" :=
  ⟨hashUiTree_spec.1 [elemClock, elemOk] [elemOk] (by decide),
   (hashUiTree_spec.2 elemOk (by decide)).trans (by decide)⟩

/-! ## C5 — the element filter -/

/-- Membership characterisation of the default filter. -/
theorem mem_filterUiElements (el : UiElement) (els : List UiElement) :
    el ∈ filterUiElements els false ↔
      el ∈ els ∧ (jsTrim el.text ≠ "" ∨ el.clickable = true) := by
  simp [filterUiElements, List.mem_filter, Bool.or_eq_true, bne_iff_ne]

/-- C5: `filterUiElements` with `includeAll = true` is the identity; with
`includeAll = false` every kept element has non-empty trimmed text or is
clickable, every excluded element has empty trimmed text and is not
clickable, and the result is a sublist of the input (relative order
preserved). -/
theorem filterUiElements_spec (els : List UiElement) :
    filterUiElements els true = els ∧
    (∀ el ∈ filterUiElements els false,
        jsTrim el.text ≠ "" ∨ el.clickable = true) ∧
    (∀ el ∈ els, el ∉ filterUiElements els false →
        jsTrim el.text = "" ∧ el.clickable = false) ∧
    (filterUiElements els false).Sublist els := by
  refine ⟨rfl, ?_, ?_, ?_⟩
  · intro el hel
    exact ((mem_filterUiElements el els).mp hel).2
  · intro el hel hnot
    by_cases ht : jsTrim el.text = ""
    · by_cases hc : el.clickable = true
      · exact absurd ((mem_filterUiElements el els).mpr ⟨hel, Or.inr hc⟩) hnot
      · exact ⟨ht, Bool.not_eq_true _ ▸ hc⟩
    · exact absurd ((mem_filterUiElements el els).mpr ⟨hel, Or.inl ht⟩) hnot
  · show (if false = true then els else _).Sublist els
    simp only [if_neg (by decide : ¬ false = true)]
    exact List.filter_sublist els

/-- The elements of the spec's filter scenario. -/
def elemEmptyPlain : UiElement :=
  ⟨0, "View", "", ⟨0, 300, 10, 10⟩, 5, 305, false, Option.none, Option.none,
    Option.none⟩

def elemHelloPlain : UiElement :=
  ⟨1, "TextView", "Hello", ⟨0, 320, 10, 10⟩, 5, 325, false, Option.none,
    Option.none, Option.none⟩

def elemClickOnly : UiElement :=
  ⟨2, "Button", "", ⟨0, 340, 10, 10⟩, 5, 345, true, Option.none, Option.none,
    Option.none⟩

theorem filterUiElements_spec_witness :
    filterUiElements [elemEmptyPlain, elemHelloPlain, elemClickOnly] true
      = [elemEmptyPlain, elemHelloPlain, elemClickOnly] ∧
    filterUiElements [elemEmptyPlain, elemHelloPlain, elemClickOnly] false
      = [elemHelloPlain, elemClickOnly] :=
  ⟨(filterUiElements_spec [elemEmptyPlain, elemHelloPlain, elemClickOnly]).1,
   by decide⟩

/-! ## C6 and C10 — the orchestrator's tree handling -/

/-- When a tree is requested, the orchestrator's result carries the
post-waiting capture passed through the filter with
`includeAll = !(filterUi ?? true)`. -/
theorem performObservation_uiTree_eq (capture : Nat → List UiElement)
    (shot : Screenshot) (fuel : Nat) (options : ObserveOptions)
    (hmode : options.mode = ObserveMode.ui_tree ∨
      options.mode = ObserveMode.both) :
    (performObservation capture shot fuel options).bind ObservationResult.uiTree
      = some (filterUiElements (capture (postStabIndex capture fuel options))
          (!(options.filterUi.getD true))) := by
  rcases hmode with h | h <;>
    simp [performObservation, h, Option.bind]

/-- C6: for a tree-requesting mode, the captured tree goes through the
Element Filter with `includeAll` equal to the negation of the `filterUi`
option: `filterUi = false` gives `includeAll = true`, and the default
(absent) as well as explicit `filterUi = true` give `includeAll = false`. -/
theorem performObservation_filterUi_inversion (capture : Nat → List UiElement)
    (shot : Screenshot) (fuel : Nat) (options : ObserveOptions)
    (hmode : options.mode = ObserveMode.ui_tree ∨
      options.mode = ObserveMode.both) :
    (performObservation capture shot fuel options).bind ObservationResult.uiTree
      = some (filterUiElements (capture (postStabIndex capture fuel options))
          (!(options.filterUi.getD true))) ∧
    (options.filterUi = some false →
      (performObservation capture shot fuel options).bind ObservationResult.uiTree
        = some (filterUiElements (capture (postStabIndex capture fuel options))
            true)) ∧
    (options.filterUi = Option.none →
      (performObservation capture shot fuel options).bind ObservationResult.uiTree
        = some (filterUiElements (capture (postStabIndex capture fuel options))
            false)) ∧
    (options.filterUi = some true →
      (performObservation capture shot fuel options).bind ObservationResult.uiTree
        = some (filterUiElements (capture (postStabIndex capture fuel options))
            false)) := by
  have key := performObservation_uiTree_eq capture shot fuel options hmode
  refine ⟨key, fun h => ?_, fun h => ?_, fun h => ?_⟩ <;> rw [key, h] <;> rfl

/-- The options of the C6 witness: mode `both`, `filterUi = false`. -/
def optsC6 : ObserveOptions :=
  ⟨ObserveMode.both, Option.none, Option.none, Option.none, Option.none,
    some false⟩

/-- The compressed screenshot used by the orchestrator witnesses. -/
def shotEx : Screenshot := ⟨"img", 10, 20⟩

theorem performObservation_filterUi_inversion_witness :
    (performObservation (fun _ => [elemEmptyPlain]) shotEx 0 optsC6).bind
        ObservationResult.uiTree
      = some (filterUiElements [elemEmptyPlain] true) := by
  have h := (performObservation_filterUi_inversion (fun _ => [elemEmptyPlain])
    shotEx 0 optsC6 (Or.inr rfl)).2.1 rfl
  rw [h]

/-- C10: with `stabilize = true` and a tree-requesting mode, the detector's
returned tree is discarded — the `uiTree` field is a fresh capture issued
after stabilization (the capture of index `n`, where the detector consumed
captures `0 .. n-1`), passed through the filter. -/
theorem performObservation_stabilize_fresh_capture
    (capture : Nat → List UiElement) (shot : Screenshot) (fuel : Nat)
    (options : ObserveOptions)
    (hstab : options.stabilize = some true)
    (hmode : options.mode = ObserveMode.ui_tree ∨
      options.mode = ObserveMode.both) :
    (performObservation capture shot fuel options).bind ObservationResult.uiTree
      = some (filterUiElements
          (capture ((waitForStableUiTree capture fuel).captures))
          (!(options.filterUi.getD true))) := by
  have key := performObservation_uiTree_eq capture shot fuel options hmode
  rw [key]
  simp [postStabIndex, hstab]

/-- Captures for the C10 witness: the detector converges after two equal
captures of `[elemOk]`; the orchestrator's own fetch (capture 2) sees
`[elemHello]` instead. -/
def capC10 : Nat → List UiElement :=
  fun i => if i < 2 then [elemOk] else [elemHello]

/-- The options of the C10 witness: mode `ui_tree`, `stabilize = true`. -/
def optsC10 : ObserveOptions :=
  ⟨ObserveMode.ui_tree, Option.none, some true, Option.none, Option.none,
    Option.none⟩

theorem performObservation_stabilize_fresh_capture_witness :
    (performObservation capC10 shotEx 5 optsC10).bind ObservationResult.uiTree
        = some [elemHello] ∧
    (waitForStableUiTree capC10 5).tree = [elemOk] ∧
    ([elemOk] : List UiElement) ≠ [elemHello] := by
  refine ⟨?_, by decide, by decide⟩
  have h := performObservation_stabilize_fresh_capture capC10 shotEx 5 optsC10
    rfl (Or.inl rfl)
  rw [h]
  decide

/-! ## C7 and C9 — the per-node element construction -/

/-- Unfolding of `nodeToElement` when the bounds attribute matches. -/
theorem nodeToElement_eq_of_bounds (i : Nat) (r : RawNode)
    (x1 y1 x2 y2 : Nat)
    (h : parseBoundsStr (r.boundsAttr.getD "") = some (x1, y1, x2, y2)) :
    nodeToElement i r = some
      ⟨i,
       (match r.classAttr with
        | some c => lastDotSegment c
        | Option.none => "Unknown"),
       (if r.textAttr.getD "" = "" then r.contentDescAttr.getD ""
        else r.textAttr.getD ""),
       ⟨Int.ofNat x1, Int.ofNat y1, Int.ofNat x2 - Int.ofNat x1,
        Int.ofNat y2 - Int.ofNat y1⟩,
       jsRoundHalfNat (x1 + x2), jsRoundHalfNat (y1 + y2),
       r.clickableAttr == some "true",
       (if r.resourceIdAttr.getD "" = "" then Option.none
        else some (stripResourceIdPackage (r.resourceIdAttr.getD ""))),
       some (r.enabledAttr == some "true"),
       some (r.focusedAttr == some "true")⟩ := by
  simp only [nodeToElement, h]

/-- Unfolding of `nodeToElement` when the bounds attribute does not match. -/
theorem nodeToElement_eq_none (i : Nat) (r : RawNode)
    (h : parseBoundsStr (r.boundsAttr.getD "") = Option.none) :
    nodeToElement i r = Option.none := by
  simp only [nodeToElement, h]

/-- C7: a node whose bounds attribute matches `[x1,y1][x2,y2]` yields an
element with `x = x1`, `y = y1`, `width = x2 - x1`, `height = y2 - y1`,
`center_x = round(x + width / 2)` and `center_y = round(y + height / 2)`;
a node whose bounds attribute fails to parse is skipped and the remaining
nodes are still parsed. -/
theorem parseUiXml_bounds_spec :
    (∀ (i : Nat) (r : RawNode) (x1 y1 x2 y2 : Nat),
        parseBoundsStr (r.boundsAttr.getD "") = some (x1, y1, x2, y2) →
        ∃ el, nodeToElement i r = some el ∧
          el.bounds = ⟨Int.ofNat x1, Int.ofNat y1,
            Int.ofNat x2 - Int.ofNat x1, Int.ofNat y2 - Int.ofNat y1⟩ ∧
          el.center_x = jsRoundHalfInt (2 * el.bounds.x + el.bounds.width) ∧
          el.center_y = jsRoundHalfInt (2 * el.bounds.y + el.bounds.height)) ∧
    (∀ (i : Nat) (r : RawNode) (rest : List RawNode),
        parseBoundsStr (r.boundsAttr.getD "") = Option.none →
        parseUiXmlFrom (r :: rest) i = parseUiXmlFrom rest i) := by
  constructor
  · intro i r x1 y1 x2 y2 h
    refine ⟨_, nodeToElement_eq_of_bounds i r x1 y1 x2 y2 h, rfl, ?_, ?_⟩
    · show jsRoundHalfNat (x1 + x2)
        = jsRoundHalfInt (2 * Int.ofNat x1 + (Int.ofNat x2 - Int.ofNat x1))
      rw [jsRoundHalfNat_eq_int]
      congr 1
      simp only [Int.ofNat_eq_natCast]
      push_cast
      ring
    · show jsRoundHalfNat (y1 + y2)
        = jsRoundHalfInt (2 * Int.ofNat y1 + (Int.ofNat y2 - Int.ofNat y1))
      rw [jsRoundHalfNat_eq_int]
      congr 1
      simp only [Int.ofNat_eq_natCast]
      push_cast
      ring
  · intro i r rest h
    simp only [parseUiXmlFrom, nodeToElement_eq_none i r h]

/-- The C7 witness node, with the spec's scenario bounds. -/
def nodeEx : RawNode :=
  ⟨some "android.widget.Button", some "OK", Option.none, some "true",
    some "[0,100][540,150]", Option.none, some "true", Option.none⟩

theorem parseUiXml_bounds_spec_witness :
    ∃ el, nodeToElement 0 nodeEx = some el ∧
      el.bounds = ⟨0, 100, 540, 50⟩ ∧ el.center_x = 270 ∧
      el.center_y = 125 := by
  obtain ⟨el, he, hb, hcx, hcy⟩ :=
    parseUiXml_bounds_spec.1 0 nodeEx 0 100 540 150 (by decide)
  refine ⟨el, he, ?_, ?_, ?_⟩
  · rw [hb]; decide
  · rw [hcx, hb]; decide
  · rw [hcy, hb]; decide

/-! ## C9 — the text fallback on both adapters -/

/-- Following the spec's words (not the source): the claimed text fallback
for the iOS adapter — the primary text attribute (`title`) when that
attribute is non-empty, otherwise the accessibility-description attribute
(`AXLabel`). -/
def specClaimedTextIos (e : IdbEntry) : String :=
  if e.title.getD "" ≠ "" then e.title.getD "" else e.AXLabel.getD ""

/-- An iOS record whose `title` is present but empty while `AXLabel` is
non-empty. -/
def entryEmptyTitle : IdbEntry :=
  ⟨Option.none, Option.none, Option.none, Option.none, Option.none,
    Option.none, some "", some "Hi", Option.none, Option.none⟩

/-- C9 as stated is false on the iOS adapter: `title ?? AXLabel ?? label`
keeps a present-but-empty `title` (nullish coalescing does not treat the
empty string as absent), so the element's text is `""` although the claimed
fallback would give the accessibility description `"Hi"`. -/
theorem elementText_c9_counterexample :
    (parseIdbDescribeAll [some entryEmptyTitle]).map UiElement.text = [""] ∧
    specClaimedTextIos entryEmptyTitle = "Hi" ∧
    ("" : String) ≠ "Hi" := by decide

/-- C9 (amended): on the Android adapter the text field is the node's text
attribute when non-empty, otherwise its content-desc attribute; on the iOS
adapter it is the first *present* of `title`, `AXLabel`, `label` (a present
but empty `title` is used as-is, with no fallback), defaulting to the empty
string.  On both adapters the text field is always a string — never
undefined, though possibly empty. -/
theorem elementText_spec :
    (∀ (i : Nat) (r : RawNode) (x1 y1 x2 y2 : Nat),
        parseBoundsStr (r.boundsAttr.getD "") = some (x1, y1, x2, y2) →
        ∃ el, nodeToElement i r = some el ∧
          el.text = (if r.textAttr.getD "" = "" then r.contentDescAttr.getD ""
                     else r.textAttr.getD "")) ∧
    (∀ (i : Nat) (e : IdbEntry),
        (entryToElement i e).text = (e.title <|> e.AXLabel <|> e.label).getD
          "") := by
  constructor
  · intro i r x1 y1 x2 y2 h
    exact ⟨_, nodeToElement_eq_of_bounds i r x1 y1 x2 y2 h, rfl⟩
  · intro i e
    rfl

/-- The Android node for the C9 witness: no text attribute, only a
content-desc. -/
def nodeDescOnly : RawNode :=
  ⟨Option.none, Option.none, some "Desc", Option.none,
    some "[0,100][540,150]", Option.none, Option.none, Option.none⟩

theorem elementText_spec_witness :
    (∃ el, nodeToElement 0 nodeDescOnly = some el ∧ el.text = "Desc") ∧
    (entryToElement 0 entryEmptyTitle).text = "" := by
  constructor
  · obtain ⟨el, he, ht⟩ :=
      elementText_spec.1 0 nodeDescOnly 0 100 540 150 (by decide)
    exact ⟨el, he, by rw [ht]; decide⟩
  · rw [elementText_spec.2 0 entryEmptyTitle]
    decide

/-! ## C8 — the Android four-strategy retrieval -/

/-- A strategy returning a nonempty parse short-circuits. -/
theorem tryStrategies_ok (ns : List RawNode) (rest : List StrategyOutcome)
    (h : parseUiXml ns ≠ []) :
    tryStrategies (StrategyOutcome.xml ns :: rest)
      = Except.ok (parseUiXml ns) := by
  simp only [tryStrategies]
  rw [if_pos (List.length_pos.mpr h)]

/-- A failed strategy (throw, no XML, or empty parse) is skipped. -/
theorem tryStrategies_skip (o : StrategyOutcome)
    (rest : List StrategyOutcome) (h : strategySucceeds o = false) :
    tryStrategies (o :: rest) = tryStrategies rest := by
  cases o with
  | throws => rfl
  | noXml => rfl
  | xml ns =>
      simp only [strategySucceeds, Bool.not_eq_false'] at h
      have hlen : ¬ (parseUiXml ns).length > 0 := by
        rw [List.isEmpty_iff] at h
        simp [h]
      simp only [tryStrategies]
      rw [if_neg hlen]

/-- C8: the Android `getUiTree` tries its four strategies in the fixed order
tty, file, tty-after-delay, file-after-delay; the first one that succeeds
with at least one parsed element determines the result, regardless of the
later outcomes; if all four fail to produce any element, the call fails with
the `TreeParseError` message advising a retry after a short delay. -/
theorem getUiTreeAndroid_spec (o1 o2 o3 o4 : StrategyOutcome) :
    (∀ ns, o1 = StrategyOutcome.xml ns → parseUiXml ns ≠ [] →
      getUiTreeAndroid o1 o2 o3 o4 = Except.ok (parseUiXml ns)) ∧
    (strategySucceeds o1 = false →
      ∀ ns, o2 = StrategyOutcome.xml ns → parseUiXml ns ≠ [] →
        getUiTreeAndroid o1 o2 o3 o4 = Except.ok (parseUiXml ns)) ∧
    (strategySucceeds o1 = false → strategySucceeds o2 = false →
      ∀ ns, o3 = StrategyOutcome.xml ns → parseUiXml ns ≠ [] →
        getUiTreeAndroid o1 o2 o3 o4 = Except.ok (parseUiXml ns)) ∧
    (strategySucceeds o1 = false → strategySucceeds o2 = false →
      strategySucceeds o3 = false →
      ∀ ns, o4 = StrategyOutcome.xml ns → parseUiXml ns ≠ [] →
        getUiTreeAndroid o1 o2 o3 o4 = Except.ok (parseUiXml ns)) ∧
    (strategySucceeds o1 = false → strategySucceeds o2 = false →
      strategySucceeds o3 = false → strategySucceeds o4 = false →
      getUiTreeAndroid o1 o2 o3 o4 = Except.error treeParseErrorMsg) := by
  refine ⟨?_, ?_, ?_, ?_, ?_⟩
  · rintro ns rfl h
    exact tryStrategies_ok ns _ h
  · rintro h1 ns rfl h
    rw [getUiTreeAndroid, tryStrategies_skip o1 _ h1]
    exact tryStrategies_ok ns _ h
  · rintro h1 h2 ns rfl h
    rw [getUiTreeAndroid, tryStrategies_skip o1 _ h1,
      tryStrategies_skip o2 _ h2]
    exact tryStrategies_ok ns _ h
  · rintro h1 h2 h3 ns rfl h
    rw [getUiTreeAndroid, tryStrategies_skip o1 _ h1,
      tryStrategies_skip o2 _ h2, tryStrategies_skip o3 _ h3]
    exact tryStrategies_ok ns _ h
  · rintro h1 h2 h3 h4
    rw [getUiTreeAndroid, tryStrategies_skip o1 _ h1,
      tryStrategies_skip o2 _ h2, tryStrategies_skip o3 _ h3,
      tryStrategies_skip o4 _ h4]
    rfl

/-- A node with no bounds attribute, so its document parses to no
elements. -/
def nodeNoBounds : RawNode :=
  ⟨Option.none, some "x", Option.none, Option.none, Option.none, Option.none,
    Option.none, Option.none⟩

theorem getUiTreeAndroid_spec_witness :
    getUiTreeAndroid StrategyOutcome.throws StrategyOutcome.noXml
        (StrategyOutcome.xml [nodeNoBounds]) (StrategyOutcome.xml [nodeEx])
      = Except.ok (parseUiXml [nodeEx]) :=
  (getUiTreeAndroid_spec StrategyOutcome.throws StrategyOutcome.noXml
    (StrategyOutcome.xml [nodeNoBounds])
    (StrategyOutcome.xml [nodeEx])).2.2.2.1
    (by decide) (by decide) (by decide) [nodeEx] rfl (by decide)
